import Mathlib

/-
Shallow embedding of src/main.go (MarketUpdater), a watcher that keeps a
streaming subscription to a market item feed: token acquisition
(UpdateToken), connection and subscription (Connect), the heartbeat/read
loop (Listen) and the outer reconnection loop (main), plus the message
decoder (processMessage / getValue).

External effects are passed in explicitly: the results of the stdlib JSON
unmarshaller, of the HTTP token exchange and of each websocket operation
are oracle inputs, and time.Now() values are explicit integer (nanosecond)
timestamps.  The logger is a pure sink and is not modelled; write-only
state (lastPing) and the raw connection handle are likewise omitted from
the watcher record.
-/

namespace MarketUpdater

/-- A decoded JSON value as Go's encoding/json produces it into an
interface value: null, bool, number (float64, modelled as a rational),
string, array, or string-keyed object. -/
inductive JValue where
  | null
  | jbool (b : Bool)
  | num (q : ℚ)
  | str (s : String)
  | arr (xs : List JValue)
  | obj (fs : List (String × JValue))

/-- A Go map[string]interface\x7b\x7d as produced by json.Unmarshal of a
top-level JSON object: an association list with distinct keys. -/
abbrev JObj := List (String × JValue)

/-- Go map indexing data[key]: the value if the key is present. -/
def lookupKey : JObj → String → Option JValue
  | [], _ => none
  | (k, v) :: rest, key => if k = key then some v else lookupKey rest key

/-- Exactly two decimal digits, the fractional part printed by fmt %.2f. -/
def pad2 (n : Nat) : String :=
  String.mk [Char.ofNat (48 + n / 10 % 10), Char.ofNat (48 + n % 10)]

/-- Hundredths of the absolute value, rounded to nearest (models the
correctly rounded decimalisation fmt applies to the float64; the claims
evaluate it only where rounding is unambiguous). -/
def fracUnits2 (q : ℚ) : Nat := (Int.floor (|q| * 100 + 1/2)).toNat

/-- fmt.Sprintf %.2f on a float64 value. -/
def goFmtF2 (q : ℚ) : String :=
  (if q < 0 then "-" else "") ++ toString (fracUnits2 q / 100) ++ "." ++ pad2 (fracUnits2 q % 100)

/-- fmt.Sprintf %.0f on a float64 value. -/
def goFmtF0 (q : ℚ) : String :=
  (if q < 0 then "-" else "") ++ toString (Int.floor (|q| + 1/2)).toNat

mutual

/-- fmt.Sprintf %v on an interface value holding a decoded JSON value:
nil prints as the nil placeholder, bools as true/false.  In getValue this
default stringification is only reached for null, bool, array and object
values (string and number are handled first); the number line is a
stand-in for the %v float formatting and is unreachable from getValue, and
map key ordering of fmt is not modelled. -/
def goFmtV : JValue → String
  | JValue.null => "<nil>"
  | JValue.jbool b => cond b "true" "false"
  | JValue.num q => toString q
  | JValue.str s => s
  | JValue.arr xs => "[" ++ goFmtVList xs ++ "]"
  | JValue.obj fs => "map[" ++ goFmtVFields fs ++ "]"

/-- Space-separated %v rendering of a slice's elements. -/
def goFmtVList : List JValue → String
  | [] => ""
  | [x] => goFmtV x
  | x :: y :: rest => goFmtV x ++ " " ++ goFmtVList (y :: rest)

/-- Space-separated key:value rendering of a map's entries. -/
def goFmtVFields : List (String × JValue) → String
  | [] => ""
  | [kv] => kv.1 ++ ":" ++ goFmtV kv.2
  | kv :: kv2 :: rest => kv.1 ++ ":" ++ goFmtV kv.2 ++ " " ++ goFmtVFields (kv2 :: rest)

end

/-- getValue from main.go (lines 170-190).  The Go function is variadic
(keys...); every call site passes the key and optionally a default, so the
variadic list is flattened into an explicit default argument, with the
empty-string default written out where the source omits it.  The type
switch: string as is, float64 via %.2f, anything else via %v; a missing
key yields the default. -/
def getValue (data : JObj) (key : String) (defaultValue : String) : String :=
  match lookupKey data key with
  | none => defaultValue
  | some (JValue.str v) => v
  | some (JValue.num v) => goFmtF2 v
  | some v => goFmtV v

/-- strings.Repeat of 50 equals signs, the record banner. -/
def eqBanner : String := String.join (List.replicate 50 "=")

/-- The conditional Float line (main.go lines 148-150): included only when
the looked-up ui_float is neither empty nor the nil placeholder. -/
def floatSection (itemData : JObj) : String :=
  let floatVal := getValue itemData "ui_float" ""
  if floatVal ≠ "" ∧ floatVal ≠ "<nil>" then "Float: " ++ floatVal ++ "\n" else ""

/-- The per-sticker lines (main.go lines 154-157).  Each element goes
through the unchecked float64 type assertion: a non-number element makes
the program panic, modelled as none. -/
def stickerLines : List JValue → Option String
  | [] => some ""
  | JValue.num q :: rest =>
      Option.map (fun r => "  - ID: " ++ goFmtF0 q ++ "\n" ++ r) (stickerLines rest)
  | _ :: _ => none

/-- The conditional Stickers block (main.go lines 152-158): present only
when the stickers key holds a non-empty array (the checked type assertion
to a slice fails harmlessly otherwise). -/
def stickersSection (itemData : JObj) : Option String :=
  match lookupKey itemData "stickers" with
  | some (JValue.arr xs) =>
      if xs.length > 0 then
        Option.map (fun l => "Stickers:\n" ++ l) (stickerLines xs)
      else some ""
  | _ => some ""

/-- The conditional Inspect line (main.go lines 160-163): present when the
looked-up inspect_url is non-empty, with literal backslash-slash replaced
by forward slash. -/
def inspectSection (itemData : JObj) : String :=
  let inspectURL := getValue itemData "inspect_url" ""
  if inspectURL ≠ "" then
    "Inspect: " ++ inspectURL.replace "\\/" "/" ++ "\n"
  else ""

/-- The rendered record built in processMessage's buffer (main.go lines
140-166), in write order; none when the sticker loop panics. -/
def renderItem (itemData : JObj) : Option String :=
  match stickersSection itemData with
  | none => none
  | some st =>
      some ("\n" ++ eqBanner ++ "\n"
        ++ "Item: " ++ getValue itemData "i_market_name" "" ++ "\n"
        ++ "Quality: " ++ getValue itemData "i_quality" "--" ++ "\n"
        ++ "Price: " ++ getValue itemData "ui_price" "" ++ " "
            ++ getValue itemData "ui_currency" "" ++ "\n"
        ++ floatSection itemData
        ++ st
        ++ inspectSection itemData
        ++ eqBanner ++ "\n")

/-- Observable outcome of processMessage on one inbound frame. -/
inductive ProcResult where
  | nonJSON (raw : String)
  | ignored
  | dataParseError
  | rendered (record : String)
  | panicked
  deriving DecidableEq

/-- processMessage from main.go (lines 126-168).  The unmarshal oracle is
the result of json.Unmarshal into map[string]interface\x7b\x7d (none when
that call errors, which includes any non-object top level).  The frame is
ignored unless its type field is the string newitems_go; the data field
then goes through the unchecked string type assertion (a missing or
non-string value panics), its contents are unmarshalled a second time
(failure logged and dropped), and the item is rendered. -/
def processMessage (unmarshal : String → Option JObj) (msg : String) : ProcResult :=
  match unmarshal msg with
  | none => ProcResult.nonJSON msg
  | some data =>
    match lookupKey data "type" with
    | some (JValue.str t) =>
      if t = "newitems_go" then
        match lookupKey data "data" with
        | some (JValue.str s) =>
          match unmarshal s with
          | none => ProcResult.dataParseError
          | some itemData =>
            match renderItem itemData with
            | none => ProcResult.panicked
            | some record => ProcResult.rendered record
        | _ => ProcResult.panicked
      else ProcResult.ignored
    | _ => ProcResult.ignored

/-- An error value returned up the call chain: dial/send/read/HTTP
failures, a JSON decode failure, or a formatted error message built with
fmt.Errorf. -/
inductive GoError where
  | network
  | parseErr
  | message (s : String)
  deriving DecidableEq

/-- The decoded token-endpoint response struct (main.go lines 66-70). -/
structure TokenBody where
  success : Bool
  token : String
  error : String
  deriving DecidableEq

/-- Outcome of the HTTP token exchange as UpdateToken observes it: a
transport/read failure, or a body together with its json.Unmarshal result
(none when the body does not decode). -/
inductive TokenHTTP where
  | netErr
  | body (decoded : Option TokenBody)
  deriving DecidableEq

/-- The watcher state (main.go lines 24-31) restricted to the fields the
control flow reads: the stored token, its recorded expiry (nanosecond
timestamp) and the retry counter.  The connection handle and the
write-only lastPing field are not modelled. -/
structure Watcher where
  token : String
  tokenExpires : Int
  retries : Nat
  deriving DecidableEq

/-- Nine minutes in nanoseconds, the conservative token lifetime margin. -/
def nineMinutesNs : Int := 9 * 60 * 1000000000

/-- MaxRetries from main.go line 20. -/
def MaxRetries : Nat := 5

/-- UpdateToken from main.go (lines 51-85), over the observed HTTP
outcome: transport or read error propagates; an undecodable body
propagates the parse error; a decoded body with success stores the token
and sets the expiry to now plus nine minutes; otherwise the
server-supplied message is wrapped with fmt.Errorf and the watcher is left
unchanged. -/
def UpdateToken (w : Watcher) (now : Int) (resp : TokenHTTP) : Watcher × Option GoError :=
  match resp with
  | TokenHTTP.netErr => (w, some GoError.network)
  | TokenHTTP.body none => (w, some GoError.parseErr)
  | TokenHTTP.body (some data) =>
    if data.success then
      ({ w with token := data.token, tokenExpires := now + nineMinutesNs }, none)
    else
      (w, some (GoError.message ("token error: " ++ data.error)))

/-- The fixed channel list from main.go line 115. -/
def channels : List String := ["newitems_go"]

/-- The environment of one Connect call: the current time (read by the
expiry check), the token exchange outcome should a refresh be needed,
whether the websocket dial succeeds, and the success of the n-th
WriteMessage. -/
structure ConnectEnv where
  now : Int
  tokResp : TokenHTTP
  dialOk : Bool
  sendOk : Nat → Bool

/-- What one Connect call did: whether UpdateToken was invoked, whether
the dial was attempted, the frames written successfully in order, the
returned error, and the resulting watcher state. -/
structure ConnectOutcome where
  refreshed : Bool
  dialed : Bool
  sent : List String
  err : Option GoError
  w : Watcher

/-- Sequential WriteMessage calls (frames in order, oracle indexed from
the given position): stops at the first failing send, returning the
frames sent so far and the error if any. -/
def sendAll : List String → (Nat → Bool) → Nat → List String × Option GoError
  | [], _, _ => ([], none)
  | f :: fs, ok, i =>
    if ok i then
      let r := sendAll fs ok (i + 1)
      (f :: r.1, r.2)
    else ([], some GoError.network)

/-- The dial-and-handshake tail of Connect (main.go lines 94-123): dial
with fixed headers; on success send the raw token first when one is held,
then one subscribe frame per channel; any failure aborts with the error. -/
def connectDial (w : Watcher) (env : ConnectEnv) (refreshed : Bool) : ConnectOutcome :=
  if env.dialOk then
    let frames := (if w.token = "" then [] else [w.token]) ++ channels
    let r := sendAll frames env.sendOk 0
    { refreshed := refreshed, dialed := true, sent := r.1, err := r.2, w := w }
  else
    { refreshed := refreshed, dialed := false, sent := [], err := some GoError.network, w := w }

/-- Connect from main.go (lines 87-124): when time.Now().After(expiry)
holds, i.e. strictly past the recorded expiry, refresh the token first
(propagating a refresh failure); then dial and handshake. -/
def Connect (w : Watcher) (env : ConnectEnv) : ConnectOutcome :=
  if w.tokenExpires < env.now then
    match UpdateToken w env.now env.tokResp with
    | (w1, some e) => { refreshed := true, dialed := false, sent := [], err := some e, w := w1 }
    | (w1, none) => connectDial w1 env true
  else
    connectDial w env false

/-- One event observed by Listen's select loop, in arrival order: a frame
delivered by the reader goroutine, a read error on the done channel, or a
ticker fire together with the heartbeat send result (none on success). -/
inductive LEvent where
  | frame (msg : String)
  | readErr (e : GoError)
  | tick (res : Option GoError)
  deriving DecidableEq

/-- How a run of Listen ended: still blocked awaiting events, returned an
error to main, or the process crashed on a decoder panic in the reader
goroutine (which does not run Listen's deferred close). -/
inductive ListenResult where
  | running
  | returned (e : GoError)
  | crashed
  deriving DecidableEq

/-- Listen from main.go (lines 192-221), over the linearised event trace;
the Bool records whether the deferred conn.Close ran.  Frames are handed
to processMessage (a panicking frame kills the process); a read error is
returned as is; a failed heartbeat send returns its error; a successful
tick continues. -/
def listenRun (u : String → Option JObj) : List LEvent → ListenResult × Bool
  | [] => (ListenResult.running, false)
  | LEvent.frame msg :: rest =>
    match processMessage u msg with
    | ProcResult.panicked => (ListenResult.crashed, false)
    | _ => listenRun u rest
  | LEvent.readErr e :: _ => (ListenResult.returned e, true)
  | LEvent.tick none :: rest => listenRun u rest
  | LEvent.tick (some e) :: _ => (ListenResult.returned e, true)

/-- The first failure event of a trace: the first read error or failed
heartbeat send, frames and successful ticks skipped. -/
def firstFailure : List LEvent → Option GoError
  | [] => none
  | LEvent.frame _ :: rest => firstFailure rest
  | LEvent.readErr e :: _ => some e
  | LEvent.tick none :: rest => firstFailure rest
  | LEvent.tick (some e) :: _ => some e

/-- The environment of one Initialize call: the time observed inside
UpdateToken, that call's HTTP outcome, and the environment of the nested
Connect call (with its own later timestamp). -/
structure InitEnv where
  tokenNow : Int
  tokResp : TokenHTTP
  connEnv : ConnectEnv

/-- Initialize from main.go (lines 43-49): sets retries to 0, refreshes
the token, then connects; the first failure propagates. -/
def Initialize (w : Watcher) (env : InitEnv) : Watcher × Option GoError :=
  let w0 : Watcher := { w with retries := 0 }
  match UpdateToken w0 env.tokenNow env.tokResp with
  | (w1, some e) => (w1, some e)
  | (w1, none) =>
    let c := Connect w1 env.connEnv
    (c.w, c.err)

/-- The environment of one outer loop iteration: the Initialize
environment, and the event trace plus unmarshal oracle for the Listen call
should Initialize succeed. -/
structure IterEnv where
  initEnv : InitEnv
  listenEvents : List LEvent
  unmarshal : String → Option JObj

/-- Where the supervisor stands after some iterations: about to run the
next iteration with the given watcher state, terminated via
logger.Fatal on retry exhaustion, crashed on a decoder panic, or still
blocked inside Listen. -/
inductive SuperState where
  | running (w : Watcher)
  | fatalExit
  | crashed
  | listening (w : Watcher)
  deriving DecidableEq

/-- One iteration of main's outer loop (main.go lines 231-251): run
Initialize; on failure check the retry counter against MaxRetries
(logger.Fatal when reached) and otherwise increment it and sleep; on
success run Listen, treating a returned error the same way. -/
def mainIter (w : Watcher) (env : IterEnv) : SuperState :=
  match Initialize w env.initEnv with
  | (w1, some _) =>
    if w1.retries ≥ MaxRetries then SuperState.fatalExit
    else SuperState.running { w1 with retries := w1.retries + 1 }
  | (w1, none) =>
    match listenRun env.unmarshal env.listenEvents with
    | (ListenResult.returned _, _) =>
      if w1.retries ≥ MaxRetries then SuperState.fatalExit
      else SuperState.running { w1 with retries := w1.retries + 1 }
    | (ListenResult.crashed, _) => SuperState.crashed
    | (ListenResult.running, _) => SuperState.listening w1

/-- main's outer loop run over a list of iteration environments, stopping
early when an iteration does not come back to the loop head. -/
def superRun (w : Watcher) : List IterEnv → SuperState
  | [] => SuperState.running w
  | env :: rest =>
    match mainIter w env with
    | SuperState.running w1 => superRun w1 rest
    | s => s

/-- The zero-valued watcher main starts with (main.go line 229). -/
def initialWatcher : Watcher := { token := "", tokenExpires := 0, retries := 0 }

/-- An iteration whose Initialize fails: the token endpoint is
unreachable, so UpdateToken returns a transport error. -/
def failIterEnv : IterEnv :=
  { initEnv :=
      { tokenNow := 0
        tokResp := TokenHTTP.netErr
        connEnv := { now := 0, tokResp := TokenHTTP.netErr, dialOk := false, sendOk := fun _ => false } }
    listenEvents := []
    unmarshal := fun _ => none }

lemma updateToken_retries (w : Watcher) (now : Int) (r : TokenHTTP) :
    ((UpdateToken w now r).1).retries = w.retries := by
  cases r with
  | netErr => rfl
  | body d =>
    cases d with
    | none => rfl
    | some b => cases hb : b.success <;> simp [UpdateToken, hb]

lemma connectDial_w (w : Watcher) (env : ConnectEnv) (rf : Bool) :
    (connectDial w env rf).w = w := by
  unfold connectDial; split <;> rfl

lemma connectDial_refreshed (w : Watcher) (env : ConnectEnv) (rf : Bool) :
    (connectDial w env rf).refreshed = rf := by
  unfold connectDial; split <;> rfl

lemma connect_w_retries (w : Watcher) (env : ConnectEnv) :
    ((Connect w env).w).retries = w.retries := by
  unfold Connect
  split
  · rcases hU : UpdateToken w env.now env.tokResp with ⟨w1, oe⟩
    have hr := updateToken_retries w env.now env.tokResp
    rw [hU] at hr
    cases oe with
    | some e => simpa using hr
    | none => rw [connectDial_w]; exact hr
  · rw [connectDial_w]

lemma initialize_retries (w : Watcher) (env : InitEnv) :
    (( Initialize w env).1).retries = 0 := by
  simp only [Initialize]
  rcases hU : UpdateToken { w with retries := 0 } env.tokenNow env.tokResp with ⟨w1, oe⟩
  have hr := updateToken_retries { w with retries := 0 } env.tokenNow env.tokResp
  rw [hU] at hr
  simp only at hr
  cases oe with
  | some e => simpa using hr
  | none => simpa [connect_w_retries] using hr

lemma mainIter_ne_fatal (w : Watcher) (env : IterEnv) :
    mainIter w env ≠ SuperState.fatalExit := by
  have h0 := initialize_retries w env.initEnv
  unfold mainIter
  rcases hI : Initialize w env.initEnv with ⟨w1, oe⟩
  rw [hI] at h0
  simp only at h0
  cases oe with
  | some e => simp [h0, MaxRetries]
  | none =>
    rcases hL : listenRun env.unmarshal env.listenEvents with ⟨res, c⟩
    cases res <;> simp [h0, MaxRetries]

/-- The fatal retry-exhaustion branch of main is unreachable: every
Initialize call resets the counter to 0 before the comparison against
MaxRetries can see an accumulated value. -/
lemma superRun_ne_fatal (envs : List IterEnv) :
    ∀ w : Watcher, superRun w envs ≠ SuperState.fatalExit := by
  induction envs with
  | nil => intro w; simp [superRun]
  | cons env rest ih =>
    intro w
    unfold superRun
    cases h : mainIter w env with
    | running w1 => exact ih w1
    | fatalExit => exact absurd h (mainIter_ne_fatal w env)
    | crashed => simp
    | listening w1 => simp

/-- C1: the claim states that after exactly MaxRetries (5) consecutive failed
initialize-or-listen cycles the process terminates fatally, with the counter
reset only on the very first initialization attempt.  On the code this fails:
Initialize resets retries to 0 on every call, so after 5 (and even 20)
consecutive failed initialize cycles the supervisor is still retrying and the
counter is stuck at 1. -/
theorem retry_bound_never_triggers :
    superRun initialWatcher (List.replicate MaxRetries failIterEnv) =
      SuperState.running { token := "", tokenExpires := 0, retries := 1 } ∧
    superRun initialWatcher (List.replicate 20 failIterEnv) =
      SuperState.running { token := "", tokenExpires := 0, retries := 1 } :=
  ⟨rfl, rfl⟩

/-- C5: a token-endpoint body decoding to success with token t makes
UpdateToken store t and set the expiry to the acquisition time plus nine
minutes, returning no error. -/
theorem updateToken_success_stores_token (w : Watcher) (now : Int) (t e : String) :
    UpdateToken w now (TokenHTTP.body (some { success := true, token := t, error := e })) =
      ({ w with token := t, tokenExpires := now + nineMinutesNs }, none) := rfl

/-- C6: a token-endpoint body decoding to failure with message e makes
UpdateToken return an error carrying e, leaving the stored token and expiry
unchanged. -/
theorem updateToken_failure_keeps_state (w : Watcher) (now : Int) (t e : String) :
    UpdateToken w now (TokenHTTP.body (some { success := false, token := t, error := e })) =
      (w, some (GoError.message ("token error: " ++ e))) := rfl

/-- A watcher holding a token whose recorded expiry is timestamp 100. -/
def expiredWatcher : Watcher := { token := "tok", tokenExpires := 100, retries := 0 }

/-- A Connect environment observing exactly the expiry instant. -/
def boundaryEnv : ConnectEnv :=
  { now := 100, tokResp := TokenHTTP.netErr, dialOk := true, sendOk := fun _ => true }

/-- C2 counterexample: at now = tokenExpires the expiry time has been reached,
yet Connect performs no refresh and dials, sending the stale token — the
claimed strict-before usability rule does not hold on the code. -/
theorem connect_dials_at_expiry_instant :
    (Connect expiredWatcher boundaryEnv).refreshed = false ∧
    (Connect expiredWatcher boundaryEnv).dialed = true ∧
    (Connect expiredWatcher boundaryEnv).sent = ["tok", "newitems_go"] ∧
    boundaryEnv.now = expiredWatcher.tokenExpires :=
  ⟨rfl, rfl, rfl, rfl⟩

/-- C2 (amended): the code treats a token as usable while now ≤ expiresAt;
Connect invokes a refresh exactly when now is strictly past the recorded
expiry, and when it dials in that case the refresh has succeeded first. -/
theorem connect_refresh_iff_strictly_past (w : Watcher) (env : ConnectEnv) :
    ((Connect w env).refreshed = true ↔ w.tokenExpires < env.now) ∧
    (w.tokenExpires < env.now → (Connect w env).dialed = true →
      ∃ b, env.tokResp = TokenHTTP.body (some b) ∧ b.success = true) := by
  unfold Connect
  by_cases h : w.tokenExpires < env.now
  · rw [if_pos h]
    rcases hU : UpdateToken w env.now env.tokResp with ⟨w1, oe⟩
    cases oe with
    | some e =>
      refine ⟨by simpa using h, ?_⟩
      intro _ hd
      simp at hd
    | none =>
      refine ⟨by simp [connectDial_refreshed, h], ?_⟩
      intro _ _
      cases hresp : env.tokResp with
      | netErr => rw [hresp] at hU; simp [UpdateToken] at hU
      | body d =>
        cases d with
        | none => rw [hresp] at hU; simp [UpdateToken] at hU
        | some b =>
          cases hb : b.success with
          | false => rw [hresp] at hU; simp [UpdateToken, hb] at hU
          | true => exact ⟨b, rfl, hb⟩
  · rw [if_neg h]
    refine ⟨by simp [connectDial_refreshed, h], fun hlt => absurd hlt h⟩

/-- A watcher whose token is strictly past its expiry at time 100. -/
def staleWatcher : Watcher := { token := "old", tokenExpires := 0, retries := 0 }

/-- An environment in which the refresh succeeds and the dial goes through. -/
def refreshEnv : ConnectEnv :=
  { now := 100
    tokResp := TokenHTTP.body (some { success := true, token := "new", error := "" })
    dialOk := true
    sendOk := fun _ => true }

/-- C2 witness: the amended theorem applied at a concrete expired-token
connect whose dial went through after a successful refresh. -/
theorem connect_refresh_witness :
    ∃ b, refreshEnv.tokResp = TokenHTTP.body (some b) ∧ b.success = true :=
  (connect_refresh_iff_strictly_past staleWatcher refreshEnv).2 (by decide) rfl

lemma sendAll_all_ok (fs : List String) (ok : Nat → Bool) (h : ∀ j, ok j = true) :
    ∀ i, sendAll fs ok i = (fs, none) := by
  induction fs with
  | nil => intro i; rfl
  | cons f fs ih => intro i; simp [sendAll, h i, ih]

lemma sendAll_first_fail (fs : List String) (ok : Nat → Bool) :
    ∀ i j, j < fs.length → ok (i + j) = false → (∀ k, k < j → ok (i + k) = true) →
    (sendAll fs ok i).2 = some GoError.network := by
  induction fs with
  | nil => intro i j hj; simp at hj
  | cons f fs ih =>
    intro i j hj hfail hbefore
    cases j with
    | zero =>
      simp only [Nat.add_zero] at hfail
      simp [sendAll, hfail]
    | succ j =>
      have h0 : ok i = true := by
        have := hbefore 0 (Nat.succ_pos j)
        simpa using this
      have hrec := ih (i + 1) j (by simpa using hj)
        (by rw [show i + 1 + j = i + (j + 1) by omega]; exact hfail)
        (fun k hk => by
          rw [show i + 1 + k = i + (k + 1) by omega]
          exact hbefore (k + 1) (by omega))
      simp [sendAll, h0, hrec]

/-- C7: with a fresh token held, a non-empty stored token and a successful
dial, Connect writes the raw token as the first outbound frame and then one
subscribe frame per configured channel, in order; a dial failure or the first
failing send aborts Connect with a network error. -/
theorem connect_sends_token_then_subscribes (w : Watcher) (env : ConnectEnv)
    (hfresh : env.now ≤ w.tokenExpires) (htok : w.token ≠ "") :
    (env.dialOk = true → (∀ i, env.sendOk i = true) →
      (Connect w env).sent = w.token :: channels ∧ (Connect w env).err = none) ∧
    (env.dialOk = false →
      (Connect w env).err = some GoError.network ∧ (Connect w env).sent = []) ∧
    (∀ j, j < (w.token :: channels).length → env.sendOk j = false →
      (∀ k, k < j → env.sendOk k = true) → env.dialOk = true →
      (Connect w env).err = some GoError.network) := by
  have hno : ¬ w.tokenExpires < env.now := not_lt.mpr hfresh
  refine ⟨?_, ?_, ?_⟩
  · intro hd hok
    simp [Connect, if_neg hno, connectDial, hd, htok, sendAll_all_ok _ _ hok 0]
  · intro hd
    simp [Connect, if_neg hno, connectDial, hd]
  · intro j hj hfail hbefore hd
    have hfirst := sendAll_first_fail (w.token :: channels) env.sendOk 0 j
      (by simpa using hj) (by simpa using hfail) (fun k hk => by simpa using hbefore k hk)
    simp [Connect, if_neg hno, connectDial, hd, htok]
    simpa [htok] using hfirst

/-- A watcher with a token valid far into the future. -/
def freshWatcher : Watcher := { token := "tok", tokenExpires := 1000, retries := 0 }

/-- An environment where the dial and every send succeed. -/
def goodSendEnv : ConnectEnv :=
  { now := 10, tokResp := TokenHTTP.netErr, dialOk := true, sendOk := fun _ => true }

/-- C7 witness: the handshake theorem applied at a concrete successful
connect. -/
theorem connect_sends_witness :
    (Connect freshWatcher goodSendEnv).sent = "tok" :: channels ∧
    (Connect freshWatcher goodSendEnv).err = none :=
  (connect_sends_token_then_subscribes freshWatcher goodSendEnv (by decide)
    (by decide)).1 rfl (fun i => rfl)

/-- A relevant frame whose JSON object has no data field. -/
def frameNoData : String := "\x7b\"type\":\"newitems_go\"\x7d"

/-- The unmarshal oracle on that frame: a one-key object. -/
def unmarshalNoData : String → Option JObj := fun s =>
  if s = frameNoData then some [("type", JValue.str "newitems_go")] else none

/-- C3 counterexample: a relevant frame whose data field is absent reaches the
unchecked string type assertion and the decoder panics instead of logging and
dropping the message. -/
theorem processMessage_panics_on_missing_data :
    processMessage unmarshalNoData frameNoData = ProcResult.panicked := rfl

/-- C3 (amended): the decode-layer failure is handled locally only in the
inner-JSON case — when the data field holds a string that fails the second
parse, the message is logged and dropped; when the data field is absent or not
a string, processMessage panics on the unchecked type assertion. -/
theorem processMessage_inner_parse_policy (u : String → Option JObj) (msg : String)
    (data : JObj) (hu : u msg = some data)
    (ht : lookupKey data "type" = some (JValue.str "newitems_go")) :
    (∀ s, lookupKey data "data" = some (JValue.str s) → u s = none →
      processMessage u msg = ProcResult.dataParseError) ∧
    (lookupKey data "data" = none → processMessage u msg = ProcResult.panicked) ∧
    (∀ v, lookupKey data "data" = some v → (∀ s, v ≠ JValue.str s) →
      processMessage u msg = ProcResult.panicked) := by
  refine ⟨?_, ?_, ?_⟩
  · intro s hd hs
    simp [processMessage, hu, ht, hd, hs]
  · intro hd
    simp [processMessage, hu, ht, hd]
  · intro v hd hv
    cases v with
    | str s => exact absurd rfl (hv s)
    | null => simp [processMessage, hu, ht, hd]
    | jbool b => simp [processMessage, hu, ht, hd]
    | num q => simp [processMessage, hu, ht, hd]
    | arr xs => simp [processMessage, hu, ht, hd]
    | obj fs => simp [processMessage, hu, ht, hd]

/-- A relevant frame whose data field holds a string that is not JSON. -/
def frameBadInner : String := "\x7b\"type\":\"newitems_go\",\"data\":\"notjson\"\x7d"

/-- The unmarshal oracle: the frame decodes, its data string does not. -/
def unmarshalBadInner : String → Option JObj := fun s =>
  if s = frameBadInner then
    some [("type", JValue.str "newitems_go"), ("data", JValue.str "notjson")]
  else none

/-- C3 witness: the amended policy applied at a concrete frame whose inner
payload fails to parse — logged and dropped, no escalation. -/
theorem processMessage_inner_witness :
    processMessage unmarshalBadInner frameBadInner = ProcResult.dataParseError :=
  (processMessage_inner_parse_policy unmarshalBadInner frameBadInner
    [("type", JValue.str "newitems_go"), ("data", JValue.str "notjson")]
    rfl rfl).1 "notjson" rfl rfl

/-- C4: an inbound frame that fails top-level JSON parsing is logged verbatim
and the decoder returns; handing such a frame to the read loop leaves the loop
exactly where it was — it keeps listening. -/
theorem nonJSON_frame_logged_and_loop_continues (u : String → Option JObj)
    (msg : String) (evs : List LEvent) (h : u msg = none) :
    processMessage u msg = ProcResult.nonJSON msg ∧
    listenRun u (LEvent.frame msg :: evs) = listenRun u evs := by
  have hp : processMessage u msg = ProcResult.nonJSON msg := by
    unfold processMessage; rw [h]
  exact ⟨hp, by simp [listenRun, hp]⟩

/-- C4 witness: the theorem applied to a concrete unparseable frame. -/
theorem nonJSON_witness :
    processMessage (fun _ => none) "garbage" = ProcResult.nonJSON "garbage" ∧
    listenRun (fun _ => none) (LEvent.frame "garbage" :: []) = listenRun (fun _ => none) [] :=
  nonJSON_frame_logged_and_loop_continues (fun _ => none) "garbage" [] rfl

/-- A relevant frame whose inner payload carries a non-numeric sticker. -/
def stickerFrame : String := "\x7b\"type\":\"newitems_go\",\"data\":\"stickerblob\"\x7d"

/-- The inner payload text of that frame's data field. -/
def stickerInner : String := "\x7b\"i_market_name\":\"Knife\",\"stickers\":[\"oops\"]\x7d"

/-- Both parse passes of the sticker frame. -/
def stickerUnmarshal : String → Option JObj := fun s =>
  if s = stickerFrame then
    some [("type", JValue.str "newitems_go"), ("data", JValue.str stickerInner)]
  else if s = stickerInner then
    some [("i_market_name", JValue.str "Knife"),
          ("stickers", JValue.arr [JValue.str "oops"])]
  else none

/-- C10: a relevant frame whose stickers field is a non-empty array holding a
non-number makes processMessage panic on the unchecked float64 type assertion
rather than dropping the message or stringifying the element. -/
theorem sticker_assertion_panics :
    processMessage stickerUnmarshal stickerFrame = ProcResult.panicked := by
  decide

/-- C9: the heartbeat-and-read loop, run over any event trace none of whose
frames makes the decoder panic, terminates exactly at the trace's first reader
error or failed heartbeat send, returns that error, and the deferred session
close runs; with no failure in the trace it keeps listening, and whenever it
returns an error that error is the trace's first failure. -/
theorem listen_returns_first_failure (u : String → Option JObj) (evs : List LEvent)
    (hsafe : ∀ msg, LEvent.frame msg ∈ evs → processMessage u msg ≠ ProcResult.panicked) :
    (∀ e, firstFailure evs = some e → listenRun u evs = (ListenResult.returned e, true)) ∧
    (firstFailure evs = none → (listenRun u evs).1 = ListenResult.running) ∧
    (∀ e c, listenRun u evs = (ListenResult.returned e, c) →
      firstFailure evs = some e ∧ c = true) := by
  induction evs with
  | nil =>
    refine ⟨fun e he => by simp [firstFailure] at he, fun _ => rfl, fun e c h => ?_⟩
    simp [listenRun] at h
  | cons ev rest ih =>
    have hsafe2 : ∀ msg, LEvent.frame msg ∈ rest → processMessage u msg ≠ ProcResult.panicked :=
      fun msg hm => hsafe msg (List.mem_cons_of_mem _ hm)
    obtain ⟨ih1, ih2, ih3⟩ := ih hsafe2
    cases ev with
    | frame msg =>
      have hp : processMessage u msg ≠ ProcResult.panicked :=
        hsafe msg (List.mem_cons_self _ _)
      have hstep : listenRun u (LEvent.frame msg :: rest) = listenRun u rest := by
        have hm : listenRun u (LEvent.frame msg :: rest) =
            match processMessage u msg with
            | ProcResult.panicked => (ListenResult.crashed, false)
            | _ => listenRun u rest := rfl
        rw [hm]
        cases hres : processMessage u msg with
        | panicked => exact absurd hres hp
        | nonJSON raw => rfl
        | ignored => rfl
        | dataParseError => rfl
        | rendered record => rfl
      refine ⟨fun e he => ?_, fun he => ?_, fun e c h => ?_⟩
      · rw [hstep]; exact ih1 e (by simpa [firstFailure] using he)
      · rw [hstep]; exact ih2 (by simpa [firstFailure] using he)
      · rw [hstep] at h
        obtain ⟨h1, h2⟩ := ih3 e c h
        exact ⟨by simpa [firstFailure] using h1, h2⟩
    | readErr e0 =>
      refine ⟨fun e he => ?_, fun he => ?_, fun e c h => ?_⟩
      · simp [firstFailure] at he
        subst he
        rfl
      · simp [firstFailure] at he
      · simp [listenRun] at h
        obtain ⟨h1, h2⟩ := h
        subst h1
        exact ⟨by simp [firstFailure], h2⟩
    | tick res =>
      cases res with
      | none =>
        have hstep : listenRun u (LEvent.tick none :: rest) = listenRun u rest := rfl
        refine ⟨fun e he => ?_, fun he => ?_, fun e c h => ?_⟩
        · rw [hstep]; exact ih1 e (by simpa [firstFailure] using he)
        · rw [hstep]; exact ih2 (by simpa [firstFailure] using he)
        · rw [hstep] at h
          obtain ⟨h1, h2⟩ := ih3 e c h
          exact ⟨by simpa [firstFailure] using h1, h2⟩
      | some e0 =>
        refine ⟨fun e he => ?_, fun he => ?_, fun e c h => ?_⟩
        · simp [firstFailure] at he
          subst he
          rfl
        · simp [firstFailure] at he
        · simp [listenRun] at h
          obtain ⟨h1, h2⟩ := h
          subst h1
          exact ⟨by simp [firstFailure], h2⟩

/-- A session trace: one frame, a good heartbeat, then a failed heartbeat
send, with a reader error queued later. -/
def heartbeatFailTrace : List LEvent :=
  [LEvent.frame "x", LEvent.tick none, LEvent.tick (some GoError.network),
   LEvent.readErr GoError.parseErr]

/-- C9 witness: on the concrete trace the loop returns the failed heartbeat
send's error (the first failure, ahead of the queued reader error) and the
session is closed. -/
theorem listen_heartbeat_fail_witness :
    listenRun (fun _ => none) heartbeatFailTrace = (ListenResult.returned GoError.network, true) :=
  (listen_returns_first_failure (fun _ => none) heartbeatFailTrace (by
    intro msg hm
    simp [heartbeatFailTrace] at hm
    subst hm
    decide)).1 GoError.network rfl

lemma digitChar_isDigit : ∀ d, d < 10 → (Char.ofNat (48 + d)).isDigit = true := by decide

lemma pad2_all_digits (n : Nat) : (pad2 n).data.all Char.isDigit = true := by
  have h1 := digitChar_isDigit (n / 10 % 10) (Nat.mod_lt _ (by norm_num))
  have h2 := digitChar_isDigit (n % 10) (Nat.mod_lt _ (by norm_num))
  simp [pad2, h1, h2]

/-- The inner payload text of the AK-47 scenario frame. -/
def akInner : String :=
  "\x7b\"i_market_name\":\"AK-47\",\"ui_price\":\"12.50\",\"ui_currency\":\"USD\"\x7d"

/-- The AK-47 scenario frame, its data field the JSON-encoded inner text. -/
def akFrame : String :=
  "\x7b\"type\":\"newitems_go\",\"data\":\"\x7b\\\"i_market_name\\\":\\\"AK-47\\\",\\\"ui_price\\\":\\\"12.50\\\",\\\"ui_currency\\\":\\\"USD\\\"\x7d\"\x7d"

/-- Both parse passes of the AK-47 scenario. -/
def akUnmarshal : String → Option JObj := fun s =>
  if s = akFrame then
    some [("type", JValue.str "newitems_go"), ("data", JValue.str akInner)]
  else if s = akInner then
    some [("i_market_name", JValue.str "AK-47"), ("ui_price", JValue.str "12.50"),
          ("ui_currency", JValue.str "USD")]
  else none

/-- The record the AK-47 scenario should render: banner, item, default
quality, price with currency, no Float, Stickers or Inspect section. -/
def akRecord : String :=
  "\n" ++ eqBanner ++ "\nItem: AK-47\nQuality: --\nPrice: 12.50 USD\n" ++ eqBanner ++ "\n"

/-- C8: field extraction looks keys up exactly, absent keys fall back to the
caller's default (empty string, or the dashes for quality at its call site);
numeric values render with exactly two decimal digits; the Float section is
omitted precisely when the value is empty or the nil placeholder; absent
stickers and inspect_url omit their sections; a present inspect URL has
backslash-slash unescaped; and the concrete AK-47 frame renders the record
with no optional sections. -/
theorem decoder_field_policy :
    (∀ (data : JObj) (key d : String), lookupKey data key = none →
      getValue data key d = d) ∧
    (∀ (data : JObj) (key d : String) (q : ℚ), lookupKey data key = some (JValue.num q) →
      ∃ (pre : String) (n : Nat), n < 100 ∧ getValue data key d = pre ++ "." ++ pad2 n ∧
        (pad2 n).length = 2 ∧ (pad2 n).data.all Char.isDigit = true) ∧
    (∀ data : JObj, floatSection data = "" ↔
      (getValue data "ui_float" "" = "" ∨ getValue data "ui_float" "" = "<nil>")) ∧
    (∀ data : JObj, lookupKey data "stickers" = none → stickersSection data = some "") ∧
    (∀ data : JObj, lookupKey data "inspect_url" = none → inspectSection data = "") ∧
    (∀ (data : JObj) (u : String), getValue data "inspect_url" "" = u → u ≠ "" →
      inspectSection data = "Inspect: " ++ u.replace "\\/" "/" ++ "\n") ∧
    processMessage akUnmarshal akFrame = ProcResult.rendered akRecord := by
  refine ⟨?_, ?_, ?_, ?_, ?_, ?_, ?_⟩
  · intro data key d h
    simp [getValue, h]
  · intro data key d q h
    refine ⟨(if q < 0 then "-" else "") ++ toString (fracUnits2 q / 100), fracUnits2 q % 100,
      Nat.mod_lt _ (by norm_num), ?_, rfl, pad2_all_digits _⟩
    simp [getValue, h, goFmtF2]
  · intro data
    unfold floatSection
    by_cases h : getValue data "ui_float" "" ≠ "" ∧ getValue data "ui_float" "" ≠ "<nil>"
    · rw [if_pos h]
      constructor
      · intro habs
        exfalso
        have hl := congrArg String.length habs
        rw [String.length_append, String.length_append] at hl
        have h7 : String.length "Float: " = 7 := rfl
        have h1 : String.length "\n" = 1 := rfl
        have h0 : String.length "" = 0 := rfl
        omega
      · intro hor
        rcases hor with h1 | h2
        · exact absurd h1 h.1
        · exact absurd h2 h.2
    · rw [if_neg h]
      simp only [true_iff]
      rcases not_and_or.mp h with h1 | h2
      · exact Or.inl (not_not.mp h1)
      · exact Or.inr (not_not.mp h2)
  · intro data h
    simp [stickersSection, h]
  · intro data h
    simp [inspectSection, getValue, h]
  · intro data u hval hne
    simp only [inspectSection]
    rw [hval, if_pos hne]
  · decide

/-- An item whose inspect URL carries escaped path separators. -/
def inspectItem : JObj := [("inspect_url", JValue.str "steam:\\/\\/run\\/123")]

/-- C8 witness: the policy applied at concrete inputs — a missing quality key
falls back to the dashes default, missing stickers yield no section, and a
present inspect URL is normalized. -/
theorem decoder_field_witness :
    getValue [] "i_quality" "--" = "--" ∧
    stickersSection [] = some "" ∧
    inspectSection inspectItem =
      "Inspect: " ++ ("steam:\\/\\/run\\/123".replace "\\/" "/") ++ "\n" :=
  ⟨decoder_field_policy.1 [] "i_quality" "--" rfl,
   decoder_field_policy.2.2.2.1 [] rfl,
   decoder_field_policy.2.2.2.2.2.1 inspectItem "steam:\\/\\/run\\/123" rfl (by decide)⟩

end MarketUpdater
